import Mathlib

/-!
# Verification of the `truto-sqlite-builder` filter compiler

A shallow embedding of `src/filter.ts` (the JSON-filter → SQL compiler) and the
parts of `src/sql.ts` / `src/constants.ts` it calls, together with theorems
checking the specification's claims about it.

JavaScript values that can appear in a filter are modelled by `JsVal`; plain
objects are modelled as their (insertion-ordered) entry lists.  A `Date` is
modelled by the `YYYY-MM-DD HH:MM:SS` string `formatDate` would produce for it,
since the compiler only ever passes dates through `sql.value`.  Thrown
exceptions become `Except` results; the shared mutable `CompileContext` object
becomes explicit state passing, where a propagated error carries the context as
mutated so far (matching a thrown exception leaving the shared object behind).

The recursion of `compileFilterRecursive` is driven by a fuel parameter.  The
`.fuelExhausted` result is an artifact of the embedding and is proved
unreachable for the fuel used by `compileFilter` (`fuel_adequate`): the
source's depth guard always fires first.
-/

set_option autoImplicit false

/-- A JavaScript value as far as the filter compiler can observe it. -/
inductive JsVal where
  | vNull
  | vUndefined
  | vStr (s : String)
  | vNum (n : Int)
  | vBool (b : Bool)
  | vDate (formatted : String)
  | vArr (elems : List JsVal)
  | vObj (fields : List (String × JsVal))

/-- The classes of exception thrown by the compiler (`TypeError`,
`SyntaxError`, `RangeError`), plus the out-of-fuel artifact of the embedding. -/
inductive JsError where
  | typeError (msg : String)
  | syntaxError (msg : String)
  | rangeError (msg : String)
  | fuelExhausted
deriving DecidableEq

/-- `interface CompileContext` from `filter.ts`. -/
structure CompileContext where
  depth : Nat
  operatorCount : Nat
  values : List JsVal

/-- `const MAX_NESTING_DEPTH = 10`. -/
def MAX_NESTING_DEPTH : Nat := 10

/-- `const MAX_OPERATORS = 100`. -/
def MAX_OPERATORS : Nat := 100

/-- `const VALID_OPERATORS = new Set([...])`. -/
def VALID_OPERATORS : List String :=
  ["gt", "gte", "lt", "lte", "ne", "in", "nin", "like", "ilike", "regex",
   "exists", "and", "or"]

/-- JavaScript truthiness of a `JsVal`. -/
def truthy : JsVal → Bool
  | .vNull => false
  | .vUndefined => false
  | .vStr s => s ≠ ""
  | .vNum n => n ≠ 0
  | .vBool b => b
  | .vDate _ => true
  | .vArr _ => true
  | .vObj _ => true

/-- The scalar test opening `compileFieldCondition`: `null`, `undefined`,
string, number, boolean, or `Date`. -/
def isScalar : JsVal → Bool
  | .vNull | .vUndefined | .vStr _ | .vNum _ | .vBool _ | .vDate _ => true
  | .vArr _ | .vObj _ => false

/-- `value === null || value === undefined` (the nullish test used both by
`sqlValue` and by the equality branch of `compileFieldCondition`). -/
def isNullish : JsVal → Bool
  | .vNull | .vUndefined => true
  | _ => false

/-- `condition !== undefined` filters in `compileFilterRecursive`. -/
def isUndef : JsVal → Bool
  | .vUndefined => true
  | _ => false

/-- `typeof v === 'object' && v !== null` (arrays, plain objects and dates). -/
def jsIsObject : JsVal → Bool
  | .vArr _ | .vObj _ | .vDate _ => true
  | _ => false

/-- Own enumerable string-keyed entries, as `Object.entries` sees them: a
plain object yields its fields, an array its index/element pairs, a date
nothing. -/
def jsEntries : JsVal → List (String × JsVal)
  | .vObj fields => fields
  | .vArr elems => elems.enum.map fun p => (toString p.1, p.2)
  | _ => []

/-- `field.split(c)` for a one-character separator, computed structurally over
the character list (the JavaScript `String.split` semantics used by
`compileJsonPath`): the empty string yields one empty segment, separators at
the ends yield empty segments. -/
def splitOnCharAux (c : Char) : List Char -> List Char -> List String
  | [], acc => [String.mk acc.reverse]
  | x :: xs, acc =>
    if x = c then String.mk acc.reverse :: splitOnCharAux c xs []
    else splitOnCharAux c xs (x :: acc)

/-- `field.split(c)` on a string, see `splitOnCharAux`. -/
def splitOnChar (c : Char) (s : String) : List String :=
  splitOnCharAux c s.data []

/-- `s.includes(c)`: character membership, structurally. -/
def strContainsChar (s : String) (c : Char) : Bool :=
  s.data.any fun x => x == c

/-- `s.startsWith(c)` for a single character, structurally. -/
def strHeadIs (s : String) (c : Char) : Bool :=
  match s.data with
  | [] => false
  | x :: _ => x == c

/-- First character of `SIMPLE_IDENTIFIER_REGEX`: `[A-Za-z_]`. -/
def isIdentStartChar (c : Char) : Bool :=
  c.isAlpha || c = '_'

/-- Later characters of `SIMPLE_IDENTIFIER_REGEX`: `[A-Za-z0-9_]`. -/
def isIdentTailChar (c : Char) : Bool :=
  c.isAlphanum || c = '_'

/-- `SIMPLE_IDENTIFIER_REGEX.test` from `constants.ts`:
`/^[A-Za-z_][A-Za-z0-9_]*$/`. -/
def isValidSqlIdentifier (s : String) : Bool :=
  match s.data with
  | [] => false
  | c :: cs => isIdentStartChar c && cs.all isIdentTailChar

/-- `QUALIFIED_IDENTIFIER_REGEX.test` from `sql.ts`:
`/^[A-Za-z_][A-Za-z0-9_]*(\.[A-Za-z_][A-Za-z0-9_]*)*$/`, i.e. one or more
dot-separated simple identifiers. -/
def isQualifiedIdentifier (s : String) : Bool :=
  (splitOnChar '.' s).all isValidSqlIdentifier

/-- `sqlValue` from `sql.ts`: canonical parameter representation of a scalar.
`Buffer`/`Uint8Array` are out of the filter grammar and not modelled; arrays
and plain objects hit the trailing unsupported-type throw. -/
def sqlValue : JsVal → Except JsError JsVal
  | .vNull => .ok .vNull
  | .vUndefined => .ok .vNull
  | .vStr s => .ok (.vStr s)
  | .vNum n => .ok (.vNum n)
  | .vBool b => .ok (.vBool b)
  | .vDate formatted => .ok (.vStr formatted)
  | .vArr _ => .error (.typeError "Unsupported value type: object")
  | .vObj _ => .error (.typeError "Unsupported value type: object")

/-- `sqlIdent` from `sql.ts`, restricted to the single-string overload (the
only one `filter.ts` uses): validate and double-quote an identifier. -/
def sqlIdent (identifier : String) : Except JsError String :=
  if identifier = "" then
    .error (.typeError "Identifier must be a non-empty string")
  else if ¬ isQualifiedIdentifier identifier then
    .error (.typeError ("Invalid identifier: " ++ identifier ++
      ". Must be a valid identifier or qualified identifier (e.g., table.column)"))
  else
    .ok ("\"" ++ identifier ++ "\"")

/-- `array.map(sqlValue)` under the thrown-exception discipline: coerce each
element left to right, aborting on the first error. -/
def mapSqlValue : List JsVal → Except JsError (List JsVal)
  | [] => .ok []
  | x :: xs =>
    match sqlValue x with
    | .error e => .error e
    | .ok v =>
      match mapSqlValue xs with
      | .error e => .error e
      | .ok vs => .ok (v :: vs)

/-- `sqlIn` from `sql.ts`: placeholder list plus coerced values. -/
def sqlIn (array : List JsVal) : Except JsError (String × List JsVal) :=
  if array.isEmpty then
    .error (.typeError "sql.in() cannot be used with empty arrays")
  else
    match mapSqlValue array with
    | .error e => .error e
    | .ok vals =>
      .ok ("(" ++ String.intercalate "," (array.map fun _ => "?") ++ ")", vals)

/-- `isJsonPath` from `filter.ts`: `field.includes('.')`. -/
def isJsonPath (field : String) : Bool :=
  strContainsChar field '.'

/-- `compileJsonPath` from `filter.ts`: split a dotted field into the base
column and the `$.`-prefixed path suffix. -/
def compileJsonPath (field : String) : Except JsError (String × String) :=
  if (splitOnChar '.' field).headD "" = "" ∨ ((splitOnChar '.' field).tail).isEmpty ∨
      ((splitOnChar '.' field).tail).any (fun part => part = "") then
    .error (.syntaxError ("Invalid JSON path: " ++ field))
  else
    .ok ((splitOnChar '.' field).headD "",
         "$." ++ String.intercalate "." ((splitOnChar '.' field).tail))

/-- Alias qualification of a quoted identifier: prepend `alias.` when an
alias is in force. -/
def qualify (tblAlias : Option String) (identText : String) : String :=
  match tblAlias with
  | some a => a ++ "." ++ identText
  | none => identText

/-- `context.operatorCount++`. -/
def bumpOp (ctx : CompileContext) : CompileContext :=
  { ctx with operatorCount := ctx.operatorCount + 1 }

/-- `context.values.push(v)`. -/
def pushValue (ctx : CompileContext) (v : JsVal) : CompileContext :=
  { ctx with values := ctx.values ++ [v] }

/-- `context.values.push(...vs)`. -/
def pushValues (ctx : CompileContext) (vs : List JsVal) : CompileContext :=
  { ctx with values := ctx.values ++ vs }

/-- The message of the operator-limit `RangeError`. -/
def tooManyOperatorsMsg : String := "Too many operators (max: 100)"

/-- `array.map(f)` under a thrown-exception discipline: apply `f` left to
right, threading the shared context, aborting on the first error while keeping
the context as mutated so far. -/
def threadList {α β : Type} (f : α → CompileContext → CompileContext × Except JsError β) :
    List α → CompileContext → CompileContext × Except JsError (List β)
  | [], ctx => (ctx, .ok [])
  | x :: xs, ctx =>
    match f x ctx with
    | (ctx1, .error e) => (ctx1, .error e)
    | (ctx1, .ok y) =>
      match threadList f xs ctx1 with
      | (ctx2, .error e) => (ctx2, .error e)
      | (ctx2, .ok ys) => (ctx2, .ok (y :: ys))

/-- The `switch (op)` body of the operator loop of `compileFieldCondition`:
dispatch on the operator name, emit the clause and push its parameters.
Operators with no `switch` case (`and`, `or`) fall through to the default and
add no clause, exactly as in the source. -/
def opSwitch (fieldExpr op : String) (value : JsVal) (ctx : CompileContext) :
    CompileContext × Except JsError (Option String) :=
  match op with
  | "gt" =>
    match sqlValue value with
    | .error e => (ctx, .error e)
    | .ok v => (pushValue ctx v, .ok (some (fieldExpr ++ " > ?")))
  | "gte" =>
    match sqlValue value with
    | .error e => (ctx, .error e)
    | .ok v => (pushValue ctx v, .ok (some (fieldExpr ++ " >= ?")))
  | "lt" =>
    match sqlValue value with
    | .error e => (ctx, .error e)
    | .ok v => (pushValue ctx v, .ok (some (fieldExpr ++ " < ?")))
  | "lte" =>
    match sqlValue value with
    | .error e => (ctx, .error e)
    | .ok v => (pushValue ctx v, .ok (some (fieldExpr ++ " <= ?")))
  | "ne" =>
    if isNullish value then
      (ctx, .ok (some (fieldExpr ++ " IS NOT NULL")))
    else
      match sqlValue value with
      | .error e => (ctx, .error e)
      | .ok v => (pushValue ctx v, .ok (some (fieldExpr ++ " <> ?")))
  | "in" =>
    match value with
    | .vArr elems =>
      if elems.isEmpty then
        (ctx, .error (.typeError "IN operator cannot be used with empty arrays"))
      else if elems.length > 999 then
        (ctx, .error (.rangeError "IN operator cannot be used with arrays larger than 999 items"))
      else
        match sqlIn elems with
        | .error e => (ctx, .error e)
        | .ok (text, vals) =>
          (pushValues ctx vals, .ok (some (fieldExpr ++ " IN " ++ text)))
    | _ => (ctx, .error (.typeError "IN operator requires an array"))
  | "nin" =>
    match value with
    | .vArr elems =>
      if elems.isEmpty then
        (ctx, .error (.typeError "NIN operator cannot be used with empty arrays"))
      else if elems.length > 999 then
        (ctx, .error (.rangeError "NIN operator cannot be used with arrays larger than 999 items"))
      else
        match sqlIn elems with
        | .error e => (ctx, .error e)
        | .ok (text, vals) =>
          (pushValues ctx vals, .ok (some (fieldExpr ++ " NOT IN " ++ text)))
    | _ => (ctx, .error (.typeError "NIN operator requires an array"))
  | "like" =>
    match value with
    | .vStr s => (pushValue ctx (.vStr s), .ok (some (fieldExpr ++ " LIKE ?")))
    | _ => (ctx, .error (.typeError "LIKE operator requires a string pattern"))
  | "ilike" =>
    match value with
    | .vStr s => (pushValue ctx (.vStr s), .ok (some (fieldExpr ++ " LIKE ? COLLATE NOCASE")))
    | _ => (ctx, .error (.typeError "ILIKE operator requires a string pattern"))
  | "regex" =>
    match value with
    | .vStr s => (pushValue ctx (.vStr s), .ok (some (fieldExpr ++ " REGEXP ?")))
    | _ => (ctx, .error (.typeError "REGEX operator requires a string pattern"))
  | _ =>
    (ctx, .ok none)

/-- One iteration of the `for (const [op, value] of Object.entries(operators))`
loop of `compileFieldCondition`: count the operator, enforce the limit, then
dispatch on the operator name. -/
def operatorStep (fieldExpr : String) (e : String × JsVal) (ctx0 : CompileContext) :
    CompileContext × Except JsError (Option String) :=
  if (bumpOp ctx0).operatorCount > MAX_OPERATORS then
    (bumpOp ctx0, .error (.rangeError tooManyOperatorsMsg))
  else
    opSwitch fieldExpr e.1 e.2 (bumpOp ctx0)

/-- The whole operator loop of `compileFieldCondition`: run `operatorStep` on
each entry in key order and keep the clauses of the operators that emit one. -/
def compileOperatorEntries (fieldExpr : String) (ops : List (String × JsVal))
    (ctx : CompileContext) : CompileContext × Except JsError (List String) :=
  match threadList (operatorStep fieldExpr) ops ctx with
  | (c, .error e) => (c, .error e)
  | (c, .ok opts) => (c, .ok opts.reduceOption)

/-- The direct-value (scalar equality / `IS NULL`) branch of
`compileFieldCondition`: count the single operator, enforce the limit, then
emit either the `json_extract` form (pushing the path) or the plain form. -/
def scalarCondition (field : String) (condition : JsVal) (ctx0 : CompileContext)
    (tblAlias : Option String) : CompileContext × Except JsError String :=
  if (bumpOp ctx0).operatorCount > MAX_OPERATORS then
    (bumpOp ctx0, .error (.rangeError tooManyOperatorsMsg))
  else if isJsonPath field then
    match compileJsonPath field with
    | .error e => (bumpOp ctx0, .error e)
    | .ok (columnName, jsonPath) =>
      match sqlIdent columnName with
      | .error e => (bumpOp ctx0, .error e)
      | .ok identText =>
        if isNullish condition then
          (pushValue (bumpOp ctx0) (.vStr jsonPath),
           .ok ("(json_extract(" ++ qualify tblAlias identText ++ ", ?) IS NULL)"))
        else
          match sqlValue condition with
          | .error e => (bumpOp ctx0, .error e)
          | .ok v =>
            (pushValues (bumpOp ctx0) [.vStr jsonPath, v],
             .ok ("(json_extract(" ++ qualify tblAlias identText ++ ", ?) = ?)"))
  else
    match sqlIdent field with
    | .error e => (bumpOp ctx0, .error e)
    | .ok identText =>
      if isNullish condition then
        (bumpOp ctx0, .ok ("(" ++ qualify tblAlias identText ++ " IS NULL)"))
      else
        match sqlValue condition with
        | .error e => (bumpOp ctx0, .error e)
        | .ok v =>
          (pushValue (bumpOp ctx0) v,
           .ok ("(" ++ qualify tblAlias identText ++ " = ?)"))

/-- The operator-object handling of `compileFieldCondition` once the field
expression is built and the JSON path (if any) is pushed: `exists` wins and
ignores every co-present operator, otherwise the loop runs and its clauses are
joined with `" AND "` (a single clause is still wrapped once). -/
def operatorBody (fieldExpr : String) (operators : List (String × JsVal))
    (ctx : CompileContext) : CompileContext × Except JsError String :=
  match operators.lookup "exists" with
  | some existsVal =>
    if (bumpOp ctx).operatorCount > MAX_OPERATORS then
      (bumpOp ctx, .error (.rangeError tooManyOperatorsMsg))
    else if truthy existsVal then
      (bumpOp ctx, .ok ("(" ++ fieldExpr ++ " IS NOT NULL)"))
    else
      (bumpOp ctx, .ok ("(" ++ fieldExpr ++ " IS NULL)"))
  | none =>
    match compileOperatorEntries fieldExpr operators ctx with
    | (c, .error e) => (c, .error e)
    | (c, .ok clauses) =>
      if clauses.isEmpty then
        (c, .error (.syntaxError "Operator object must contain at least one valid operator"))
      else if clauses.length = 1 then
        (c, .ok ("(" ++ clauses.headD "" ++ ")"))
      else
        (c, .ok ("(" ++ String.intercalate " AND " clauses ++ ")"))

/-- The operator-object branch of `compileFieldCondition`: validate every key
first, resolve the field expression (pushing the JSON path parameter when the
field is dotted), then defer to `operatorBody`. -/
def operatorCondition (field : String) (operators : List (String × JsVal))
    (ctx : CompileContext) (tblAlias : Option String) :
    CompileContext × Except JsError String :=
  match operators.find? (fun p => ¬ VALID_OPERATORS.contains p.1) with
  | some p => (ctx, .error (.syntaxError ("Unknown operator: " ++ p.1)))
  | none =>
    if isJsonPath field then
      match compileJsonPath field with
      | .error e => (ctx, .error e)
      | .ok (columnName, jsonPath) =>
        match sqlIdent columnName with
        | .error e => (ctx, .error e)
        | .ok identText =>
          operatorBody ("json_extract(" ++ qualify tblAlias identText ++ ", ?)")
            operators (pushValue ctx (.vStr jsonPath))
    else
      match sqlIdent field with
      | .error e => (ctx, .error e)
      | .ok identText =>
        operatorBody (qualify tblAlias identText) operators ctx

/-- `compileFieldCondition` from `filter.ts`: a scalar is an equality
condition, anything else (an array or plain object) is an operator object
whose entries are its own enumerable keys. -/
def compileFieldCondition (field : String) (condition : JsVal)
    (ctx : CompileContext) (tblAlias : Option String) :
    CompileContext × Except JsError String :=
  if isScalar condition then
    scalarCondition field condition ctx tblAlias
  else
    operatorCondition field (jsEntries condition) ctx tblAlias

/-- The `and` / `or` handling of `compileFilterRecursive`, parameterized by
the recursive compiler, the key, the joiner and the label used in messages.
Returns `none` when the key is absent or its value falsy. -/
def logicalBranch
    (compileSub : JsVal → CompileContext → Option String → CompileContext × Except JsError String)
    (entries : List (String × JsVal)) (key joiner label : String)
    (ctx : CompileContext) (tblAlias : Option String) :
    CompileContext × Except JsError (Option String) :=
  match entries.lookup key with
  | none => (ctx, .ok none)
  | some v =>
    if truthy v then
      if (bumpOp ctx).operatorCount > MAX_OPERATORS then
        (bumpOp ctx, .error (.rangeError tooManyOperatorsMsg))
      else
        match v with
        | .vArr subs =>
          if subs.isEmpty then
            (bumpOp ctx, .error (.typeError (label ++ " operator cannot be used with empty arrays")))
          else
            match threadList (fun sub c => compileSub sub c tblAlias) subs (bumpOp ctx) with
            | (ctx1, .error e) => (ctx1, .error e)
            | (ctx1, .ok cls) =>
              (ctx1, .ok (some ("(" ++ String.intercalate joiner cls ++ ")")))
        | _ => (bumpOp ctx, .error (.typeError (label ++ " operator must be an array")))
    else
      (ctx, .ok none)

/-- The plain-field pass of `compileFilterRecursive`: arrays are rejected
(message quoting simplified: the quote characters around the field name are
omitted), everything else goes to `compileFieldCondition`. -/
def fieldStep (tblAlias : Option String) (e : String × JsVal) (ctx : CompileContext) :
    CompileContext × Except JsError String :=
  match e.2 with
  | .vArr _ =>
    (ctx, .error (.syntaxError ("Field " ++ e.1 ++
      " cannot have array value. Use logical operators and/or instead.")))
  | _ => compileFieldCondition e.1 e.2 ctx tblAlias

/-- The alias-block pass of `compileFilterRecursive`: strip the `$`, validate
the tblAlias name, recurse with the tblAlias in force. -/
def aliasStep
    (compileSub : JsVal → CompileContext → Option String → CompileContext × Except JsError String)
    (e : String × JsVal) (ctx : CompileContext) :
    CompileContext × Except JsError String :=
  if ¬ isValidSqlIdentifier (e.1.drop 1) then
    (ctx, .error (.syntaxError ("Invalid alias identifier: " ++ e.1.drop 1)))
  else
    compileSub e.2 ctx (some (e.1.drop 1))

/-- The `fieldEntries` filter of `compileFilterRecursive`: drop `and`, `or`,
`$`-prefixed keys and `undefined` values, keeping key order. -/
def fieldEntries (entries : List (String × JsVal)) : List (String × JsVal) :=
  entries.filter fun e =>
    e.1 ≠ "and" && e.1 ≠ "or" && !(strHeadIs e.1 '$') && !(isUndef e.2)

/-- The `aliasEntries` filter of `compileFilterRecursive`: `$`-prefixed keys
whose value is a non-null, non-`undefined` object. -/
def aliasEntries (entries : List (String × JsVal)) : List (String × JsVal) :=
  entries.filter fun e => strHeadIs e.1 '$' && jsIsObject e.2

/-- One level of `compileFilterRecursive` after the depth and object guards:
the clause list is built in source order — the `and` clause, then the `or`
clause, then plain field clauses, then tblAlias-block clauses. -/
def filterLevel
    (compileSub : JsVal → CompileContext → Option String → CompileContext × Except JsError String)
    (entries : List (String × JsVal)) (ctx : CompileContext) (tblAlias : Option String) :
    CompileContext × Except JsError (List String) :=
  match logicalBranch compileSub entries "and" " AND " "AND" ctx tblAlias with
  | (c, .error e) => (c, .error e)
  | (c, .ok andClause) =>
    match logicalBranch compileSub entries "or" " OR " "OR" c tblAlias with
    | (c, .error e) => (c, .error e)
    | (c, .ok orClause) =>
      match threadList (fieldStep tblAlias) (fieldEntries entries) c with
      | (c, .error e) => (c, .error e)
      | (c, .ok fieldClauses) =>
        match threadList (aliasStep compileSub) (aliasEntries entries) c with
        | (c, .error e) => (c, .error e)
        | (c, .ok aliasClauses) =>
          (c, .ok (andClause.toList ++ orClause.toList ++ fieldClauses ++ aliasClauses))

/-- `compileFilterRecursive` from `filter.ts`.  The fuel argument only drives
the recursion; `fuel_adequate` below shows the depth guard keeps the
`.fuelExhausted` branch unreachable for the fuel `compileFilter` supplies. -/
def compileFilterRecursive : Nat → JsVal → CompileContext → Option String →
    CompileContext × Except JsError String
  | 0, _, ctx, _ => (ctx, .error .fuelExhausted)
  | fuel + 1, filter, ctx, tblAlias =>
    if ctx.depth ≥ MAX_NESTING_DEPTH then
      (ctx, .error (.rangeError "Nesting depth too deep (max: 10)"))
    else if ¬ jsIsObject filter then
      (ctx, .error (.typeError "Filter must be an object"))
    else
      match filterLevel (compileFilterRecursive fuel) (jsEntries filter)
          { ctx with depth := ctx.depth + 1 } tblAlias with
      | (c, .error e) => (c, .error e)
      | (c, .ok clauses) =>
        -- context.depth-- happens before the empty-clauses check in the source
        if clauses.isEmpty then
          ({ c with depth := c.depth - 1 },
           .error (.syntaxError "Filter must contain at least one condition"))
        else if clauses.length = 1 then
          ({ c with depth := c.depth - 1 }, .ok (clauses.headD ""))
        else
          ({ c with depth := c.depth - 1 },
           .ok ("(" ++ String.intercalate " AND " clauses ++ ")"))

/-- The result record of `compileFilter`. -/
structure FilterResult where
  text : String
  values : List JsVal

/-- Fuel supplied by `compileFilter`: any amount exceeding
`MAX_NESTING_DEPTH + 1` behaves identically because the depth guard fires
first (`fuel_adequate`). -/
def COMPILE_FUEL : Nat := MAX_NESTING_DEPTH + 2

/-- `compileFilter` from `filter.ts`: fresh context, recursive compile, one
extra pair of parentheses. -/
def compileFilter (filter : JsVal) : Except JsError FilterResult :=
  let ctx : CompileContext := { depth := 0, operatorCount := 0, values := [] }
  match compileFilterRecursive COMPILE_FUEL filter ctx none with
  | (_, .error e) => .error e
  | (ctx, .ok text) => .ok { text := "(" ++ text ++ ")", values := ctx.values }

/-- Number of `?` placeholders in a piece of SQL text. -/
def countQ (s : String) : Nat :=
  s.data.countP fun c => c == '?'

/-- A filter nested `n + 1` object levels deep via repeated single-element
`and` wrapping. -/
def nestAnd : Nat → JsVal
  | 0 => .vObj [("x", .vNum 1)]
  | n + 1 => .vObj [("and", .vArr [nestAnd n])]

/-- `n` copies of the letter a: cheap distinct valid identifiers. -/
def repName (n : Nat) : String :=
  String.mk (List.replicate n 'a')

/-- One sub-filter with a two-operator condition: costs two operators. -/
def gtLtSub (i : Nat) : JsVal :=
  .vObj [(repName (i + 1), .vObj [("gt", .vNum 1), ("lt", .vNum 2)])]

/-- `n` two-operator sub-filters under one `and` combinator: `2 n + 1`
counted operators (the spec's operator-bound example shape). -/
def opFilter (n : Nat) : JsVal :=
  .vObj [("and", .vArr ((List.range n).map gtLtSub))]

/-- A filter of `n` plain scalar-equality field conditions and nothing else:
`n` counted operators. -/
def scalarFilter (n : Nat) : JsVal :=
  .vObj ((List.range n).map fun i => (repName (i + 1), .vNum 1))

/-- A combinator value that is truthy yet not a non-empty array (the shapes
the `and` / `or` branches reject once entered). -/
def badCombinatorShape : JsVal → Bool
  | .vArr xs => xs.isEmpty
  | _ => true

/-- How a successful compile step may change the context: the nesting depth is
restored, and an operator count within the limit stays within the limit. -/
def ctxInvariant (c c' : CompileContext) : Prop :=
  c'.depth = c.depth ∧
    (c.operatorCount ≤ MAX_OPERATORS → c'.operatorCount ≤ MAX_OPERATORS)

/-! ## Context invariants of successful compilation steps -/

theorem ctxInvariant_refl (c : CompileContext) : ctxInvariant c c :=
  ⟨rfl, fun h => h⟩

theorem ctxInvariant_trans {c1 c2 c3 : CompileContext}
    (h1 : ctxInvariant c1 c2) (h2 : ctxInvariant c2 c3) : ctxInvariant c1 c3 :=
  ⟨h2.1.trans h1.1, fun h => h2.2 (h1.2 h)⟩

theorem threadList_ok_inv {α β : Type}
    (f : α → CompileContext → CompileContext × Except JsError β)
    (hf : ∀ x c c' y, f x c = (c', .ok y) → ctxInvariant c c') :
    ∀ (xs : List α) (c c' : CompileContext) (ys : List β),
      threadList f xs c = (c', .ok ys) → ctxInvariant c c' := by
  intro xs
  induction xs with
  | nil =>
    intro c c' ys h
    simp only [threadList] at h
    cases h
    exact ctxInvariant_refl c
  | cons x rest ih =>
    intro c c' ys h
    simp only [threadList] at h
    rcases hfx : f x c with ⟨c1, r1⟩
    rw [hfx] at h
    cases r1 with
    | error e => simp at h
    | ok y =>
      simp only [] at h
      rcases hrest : threadList f rest c1 with ⟨c2, r2⟩
      rw [hrest] at h
      cases r2 with
      | error e => simp at h
      | ok ys2 =>
        simp only [Prod.mk.injEq] at h
        obtain ⟨h1, _⟩ := h
        subst h1
        exact ctxInvariant_trans (hf x c c1 y hfx) (ih c1 c2 ys2 hrest)

set_option maxHeartbeats 1000000 in
theorem opSwitch_ok_shape {fe op : String} {value : JsVal}
    {ctx c' : CompileContext} {y : Option String}
    (h : opSwitch fe op value ctx = (c', .ok y)) :
    c'.depth = ctx.depth ∧ c'.operatorCount = ctx.operatorCount := by
  unfold opSwitch at h
  repeat' split at h
  all_goals try simp only [Prod.mk.injEq] at h
  all_goals obtain ⟨h1, h2⟩ := h
  all_goals cases h2
  all_goals subst h1
  all_goals simp [pushValue, pushValues]

theorem operatorStep_ok_inv {fe : String} {e : String × JsVal}
    {c c' : CompileContext} {y : Option String}
    (h : operatorStep fe e c = (c', .ok y)) : ctxInvariant c c' := by
  unfold operatorStep at h
  split at h
  · simp at h
  · rename_i hguard
    obtain ⟨hd, hc⟩ := opSwitch_ok_shape h
    refine ⟨?_, fun _ => ?_⟩
    · rw [hd]; rfl
    · rw [hc]
      simp only [bumpOp, gt_iff_lt, not_lt] at *
      exact hguard

theorem pushValue_inv (ctx : CompileContext) (v : JsVal) :
    ctxInvariant ctx (pushValue ctx v) :=
  ⟨rfl, fun h => h⟩

theorem compileOperatorEntries_ok_inv {fe : String} {ops : List (String × JsVal)}
    {ctx ctx' : CompileContext} {cls : List String}
    (h : compileOperatorEntries fe ops ctx = (ctx', .ok cls)) :
    ctxInvariant ctx ctx' := by
  unfold compileOperatorEntries at h
  split at h
  · simp at h
  · rename_i c opts heq
    simp only [Prod.mk.injEq] at h
    obtain ⟨h1, _⟩ := h
    subst h1
    exact threadList_ok_inv _ (fun x c1 c2 y hx => operatorStep_ok_inv hx)
      ops ctx c opts heq

theorem scalarCondition_ok_inv {field : String} {cond : JsVal}
    {ctx ctx' : CompileContext} {a : Option String} {s : String}
    (h : scalarCondition field cond ctx a = (ctx', .ok s)) :
    ctxInvariant ctx ctx' := by
  unfold scalarCondition at h
  repeat' split at h
  all_goals try simp only [Prod.mk.injEq] at h
  all_goals obtain ⟨h1, h2⟩ := h
  all_goals cases h2
  all_goals subst h1
  all_goals refine ⟨by simp [bumpOp, pushValue, pushValues], fun _ => ?_⟩
  all_goals simp only [bumpOp, pushValue, pushValues, MAX_OPERATORS, gt_iff_lt, not_lt] at *
  all_goals omega

theorem operatorBody_ok_inv {fe : String} {ops : List (String × JsVal)}
    {ctx ctx' : CompileContext} {s : String}
    (h : operatorBody fe ops ctx = (ctx', .ok s)) :
    ctxInvariant ctx ctx' := by
  unfold operatorBody at h
  repeat' split at h
  all_goals try simp only [Prod.mk.injEq] at h
  all_goals obtain ⟨h1, h2⟩ := h
  all_goals cases h2
  all_goals subst h1
  all_goals first
    | (refine ⟨by simp [bumpOp], fun _ => ?_⟩
       simp only [bumpOp, MAX_OPERATORS, gt_iff_lt, not_lt] at *
       omega)
    | exact compileOperatorEntries_ok_inv (by assumption)

theorem operatorCondition_ok_inv {field : String} {ops : List (String × JsVal)}
    {ctx ctx' : CompileContext} {a : Option String} {s : String}
    (h : operatorCondition field ops ctx a = (ctx', .ok s)) :
    ctxInvariant ctx ctx' := by
  unfold operatorCondition at h
  repeat' split at h
  all_goals first
    | simp at h
    | exact ctxInvariant_trans (pushValue_inv ctx _) (operatorBody_ok_inv h)
    | exact operatorBody_ok_inv h

theorem compileFieldCondition_ok_inv {field : String} {cond : JsVal}
    {ctx ctx' : CompileContext} {a : Option String} {s : String}
    (h : compileFieldCondition field cond ctx a = (ctx', .ok s)) :
    ctxInvariant ctx ctx' := by
  unfold compileFieldCondition at h
  split at h
  · exact scalarCondition_ok_inv h
  · exact operatorCondition_ok_inv h

theorem bumpOp_inv_of_le {ctx : CompileContext}
    (hle : (bumpOp ctx).operatorCount ≤ MAX_OPERATORS) :
    ctxInvariant ctx (bumpOp ctx) :=
  ⟨rfl, fun _ => hle⟩

theorem fieldStep_ok_inv {a : Option String} {e : String × JsVal}
    {ctx ctx' : CompileContext} {s : String}
    (h : fieldStep a e ctx = (ctx', .ok s)) : ctxInvariant ctx ctx' := by
  unfold fieldStep at h
  split at h
  · simp at h
  · exact compileFieldCondition_ok_inv h

theorem aliasStep_ok_inv
    (compileSub : JsVal → CompileContext → Option String → CompileContext × Except JsError String)
    (hsub : ∀ f c a c' s, compileSub f c a = (c', .ok s) → ctxInvariant c c')
    {e : String × JsVal} {ctx ctx' : CompileContext} {s : String}
    (h : aliasStep compileSub e ctx = (ctx', .ok s)) : ctxInvariant ctx ctx' := by
  unfold aliasStep at h
  split at h
  · simp at h
  · exact hsub _ _ _ _ _ h

theorem logicalBranch_ok_inv
    (compileSub : JsVal → CompileContext → Option String → CompileContext × Except JsError String)
    (hsub : ∀ f c a c' s, compileSub f c a = (c', .ok s) → ctxInvariant c c')
    {entries : List (String × JsVal)} {key joiner label : String}
    {ctx ctx' : CompileContext} {a : Option String} {r : Option String}
    (h : logicalBranch compileSub entries key joiner label ctx a = (ctx', .ok r)) :
    ctxInvariant ctx ctx' := by
  unfold logicalBranch at h
  repeat' split at h
  all_goals try simp only [Prod.mk.injEq] at h
  all_goals obtain ⟨h1, h2⟩ := h
  all_goals cases h2
  all_goals subst h1
  all_goals first
    | exact ctxInvariant_refl _
    | exact ctxInvariant_trans (bumpOp_inv_of_le (by omega))
        (threadList_ok_inv _ (fun x c1 c2 y hx => hsub x c1 a c2 y hx) _ _ _ _
          (by assumption))

theorem filterLevel_ok_inv
    (compileSub : JsVal → CompileContext → Option String → CompileContext × Except JsError String)
    (hsub : ∀ f c a c' s, compileSub f c a = (c', .ok s) → ctxInvariant c c')
    {entries : List (String × JsVal)} {ctx ctx' : CompileContext}
    {a : Option String} {cls : List String}
    (h : filterLevel compileSub entries ctx a = (ctx', .ok cls)) :
    ctxInvariant ctx ctx' := by
  unfold filterLevel at h
  repeat' split at h
  all_goals try simp only [Prod.mk.injEq] at h
  all_goals obtain ⟨h1, h2⟩ := h
  all_goals cases h2
  all_goals subst h1
  exact ctxInvariant_trans (logicalBranch_ok_inv compileSub hsub (by assumption))
    (ctxInvariant_trans (logicalBranch_ok_inv compileSub hsub (by assumption))
      (ctxInvariant_trans
        (threadList_ok_inv _ (fun x c1 c2 y hx => fieldStep_ok_inv hx) _ _ _ _
          (by assumption))
        (threadList_ok_inv _ (fun x c1 c2 y hx => aliasStep_ok_inv compileSub hsub hx)
          _ _ _ _ (by assumption))))

theorem compileFilterRecursive_ok_inv :
    ∀ (fuel : Nat) (f : JsVal) (ctx : CompileContext) (a : Option String)
      (ctx' : CompileContext) (s : String),
      compileFilterRecursive fuel f ctx a = (ctx', .ok s) → ctxInvariant ctx ctx' := by
  intro fuel
  induction fuel with
  | zero =>
    intro f ctx a ctx' s h
    simp [compileFilterRecursive] at h
  | succ n ih =>
    intro f ctx a ctx' s h
    unfold compileFilterRecursive at h
    split at h
    · simp at h
    · split at h
      · simp at h
      · split at h
        · simp at h
        · rename_i c clauses heq
          have hlvl : ctxInvariant { ctx with depth := ctx.depth + 1 } c :=
            filterLevel_ok_inv _ (fun g c1 a1 c2 s2 hx => ih g c1 a1 c2 s2 hx) heq
          repeat' split at h
          all_goals try simp only [Prod.mk.injEq] at h
          all_goals obtain ⟨h1, h2⟩ := h
          all_goals cases h2
          all_goals subst h1
          all_goals exact ⟨by
              have hd : c.depth = ctx.depth + 1 := hlvl.1
              show c.depth - 1 = ctx.depth
              omega,
            fun hc => hlvl.2 hc⟩

/-! ## The `exists` short-circuit of the operator body -/

theorem operatorBody_exists_some {fe : String} {ops : List (String × JsVal)}
    {v : JsVal} {ctx : CompileContext}
    (hex : ops.lookup "exists" = some v)
    (hle : ¬ (bumpOp ctx).operatorCount > MAX_OPERATORS) :
    operatorBody fe ops ctx =
      (bumpOp ctx,
       .ok (if truthy v then "(" ++ fe ++ " IS NOT NULL)"
            else "(" ++ fe ++ " IS NULL)")) := by
  unfold operatorBody
  rw [hex]
  simp only [if_neg hle]
  by_cases ht : truthy v
  · rw [if_pos ht, if_pos ht]
  · rw [if_neg ht, if_neg ht]

/-! ## Claim theorems -/

/-- **C1**: the claimed placeholder/value parity fails on the code.  For the
filter `{"a.b": {gt: 1, lt: 5}}` compilation succeeds, yet the text carries
four `?` placeholders while only three values are pushed: the JSON path is
pushed once (line 153 of `filter.ts`) but the placeholder-bearing
`json_extract(..., ?)` expression is repeated in every operator clause. -/
theorem c1_parity_violation_multi_op_json_path :
    compileFilter (.vObj [("a.b", .vObj [("gt", .vNum 1), ("lt", .vNum 5)])]) =
      .ok { text := "((json_extract(\"a\", ?) > ? AND json_extract(\"a\", ?) < ?))",
            values := [.vStr "$.b", .vNum 1, .vNum 5] } ∧
    countQ "((json_extract(\"a\", ?) > ? AND json_extract(\"a\", ?) < ?))" = 4 ∧
    ([JsVal.vStr "$.b", JsVal.vNum 1, JsVal.vNum 5] : List JsVal).length = 3 :=
  ⟨by rfl, rfl, rfl⟩

/-- **C2** counterexample: the claim says every recursive compile call
restores the depth counter even when an error propagates.  Compiling
`{and: "x"}` from a fresh context throws the not-an-array `TypeError` and
leaves the context with `depth = 1`, not its entry value `0`: the source
decrements `context.depth` only on the success path (line 376), with no
`try`/`finally` around the throw sites. -/
theorem c2_error_leaves_depth_incremented :
    compileFilterRecursive COMPILE_FUEL (.vObj [("and", .vStr "x")])
        { depth := 0, operatorCount := 0, values := [] } none =
      ({ depth := 1, operatorCount := 1, values := [] },
       .error (.typeError "AND operator must be an array")) :=
  rfl

/-- **C2** (amended): a recursive compile call restores the depth counter to
its entry value whenever it returns successfully, and also when the call
itself raises the empty-filter error, because the source decrements
`context.depth` (line 376) before the `clauses.length === 0` throw
(lines 378-379) — the clause list evaluating to `[]` yields the empty-filter
error with the depth back at its entry value, as the empty filter `{}`
concretely shows.  Every other throw site sits between the increment and the
decrement, so those errors propagate with the incremented depth in place (see
`c2_error_leaves_depth_incremented`), which is unobservable to callers
because `compileFilter` creates a fresh context per top-level call and
discards it on error. -/
theorem c2_depth_restore :
    (∀ (fuel : Nat) (f : JsVal) (ctx : CompileContext) (a : Option String)
       (ctx' : CompileContext) (s : String),
      compileFilterRecursive fuel f ctx a = (ctx', .ok s) →
      ctx'.depth = ctx.depth) ∧
    (∀ (fuel : Nat) (f : JsVal) (ctx : CompileContext) (a : Option String)
       (c : CompileContext),
      ctx.depth < MAX_NESTING_DEPTH →
      jsIsObject f = true →
      filterLevel (compileFilterRecursive fuel) (jsEntries f)
        { ctx with depth := ctx.depth + 1 } a = (c, .ok []) →
      compileFilterRecursive (fuel + 1) f ctx a =
        ({ c with depth := c.depth - 1 },
         .error (.syntaxError "Filter must contain at least one condition")) ∧
      ({ c with depth := c.depth - 1 }).depth = ctx.depth) ∧
    compileFilterRecursive COMPILE_FUEL (.vObj [])
        { depth := 0, operatorCount := 0, values := [] } none =
      ({ depth := 0, operatorCount := 0, values := [] },
       .error (.syntaxError "Filter must contain at least one condition")) := by
  refine ⟨?_, ?_, by rfl⟩
  · intro fuel f ctx a ctx' s h
    exact (compileFilterRecursive_ok_inv fuel f ctx a ctx' s h).1
  · intro fuel f ctx a c hd hobj hlvl
    have hdep : c.depth = ctx.depth + 1 :=
      (filterLevel_ok_inv (compileFilterRecursive fuel)
        (fun g c1 a1 c2 s hx => compileFilterRecursive_ok_inv fuel g c1 a1 c2 s hx)
        hlvl).1
    refine ⟨?_, ?_⟩
    · unfold compileFilterRecursive
      rw [if_neg (by omega)]
      rw [if_neg (by simp [hobj])]
      rw [hlvl]
      rfl
    · show c.depth - 1 = ctx.depth
      omega

theorem c2_depth_restore_witness :
    (({ depth := 0, operatorCount := 1, values := [JsVal.vNum 1] } : CompileContext).depth =
       ({ depth := 0, operatorCount := 0, values := [] } : CompileContext).depth) ∧
    compileFilterRecursive 12 (.vObj [])
        { depth := 0, operatorCount := 0, values := [] } none =
      ({ depth := 0, operatorCount := 0, values := [] },
       .error (.syntaxError "Filter must contain at least one condition")) := by
  constructor
  · exact c2_depth_restore.1 12 (.vObj [("x", .vNum 1)])
      { depth := 0, operatorCount := 0, values := [] } none
      { depth := 0, operatorCount := 1, values := [.vNum 1] } "(\"x\" = ?)" (by rfl)
  · exact (c2_depth_restore.2.1 11 (.vObj [])
      { depth := 0, operatorCount := 0, values := [] } none
      { depth := 1, operatorCount := 0, values := [] }
      (by decide) (by rfl) (by rfl)).1

/-- **C5**: a filter nested 11 object levels deep via repeated single-element
`and` wrapping (`nestAnd 10`) fails with the nesting-depth error, a filter
nested 8 levels deep (`nestAnd 7`) compiles, and the limit constant is 10. -/
theorem c5_nesting_depth_limit :
    compileFilter (nestAnd 10) =
      .error (.rangeError "Nesting depth too deep (max: 10)") ∧
    compileFilter (nestAnd 7) =
      .ok { text := "(((((((((\"x\" = ?)))))))))", values := [.vNum 1] } ∧
    MAX_NESTING_DEPTH = 10 :=
  ⟨rfl, rfl, rfl⟩

/-- **C6**: a filter whose compilation counts 101 operators (50 two-operator
fields under one `and`: `opFilter 50`) fails with the too-many-operators
error, one counting 99 (`opFilter 49`) succeeds, the limit constant is 100,
and — for the determinism part of the claim — every successful recursive
compilation keeps an operator count that was within the limit within the
limit, wherever in the tree the operators sit. -/
theorem c6_operator_limit :
    compileFilter (opFilter 50) = .error (.rangeError tooManyOperatorsMsg) ∧
    (∃ r, compileFilter (opFilter 49) = .ok r) ∧
    MAX_OPERATORS = 100 ∧
    (∀ fuel f ctx a ctx' s,
      compileFilterRecursive fuel f ctx a = (ctx', .ok s) →
      ctx.operatorCount ≤ MAX_OPERATORS → ctx'.operatorCount ≤ MAX_OPERATORS) :=
  ⟨by rfl, ⟨_, by rfl⟩, rfl,
   fun fuel f ctx a ctx' s h hle =>
     (compileFilterRecursive_ok_inv fuel f ctx a ctx' s h).2 hle⟩

theorem c6_operator_limit_witness :
    ({ depth := 0, operatorCount := 1, values := [JsVal.vNum 1] } : CompileContext).operatorCount ≤
      MAX_OPERATORS :=
  c6_operator_limit.2.2.2 12 (.vObj [("x", .vNum 1)])
    { depth := 0, operatorCount := 0, values := [] } none
    { depth := 0, operatorCount := 1, values := [.vNum 1] } "(\"x\" = ?)" (by rfl)
    (by decide)

set_option maxRecDepth 40000 in
/-- **C9** (implicit): every plain scalar equality condition — `null` and
`undefined` included — increments the operator counter by exactly one, on
success and on failure alike, so a filter of 101 scalar-equality field
conditions and nothing else (`scalarFilter 101`) trips the operator limit
while 100 such conditions compile. -/
theorem c9_scalar_equality_counts_one :
    (∀ field cond ctx a, isScalar cond = true →
      ((compileFieldCondition field cond ctx a).1).operatorCount =
        ctx.operatorCount + 1) ∧
    compileFilter (scalarFilter 101) = .error (.rangeError tooManyOperatorsMsg) ∧
    (∃ r, compileFilter (scalarFilter 100) = .ok r) := by
  refine ⟨?_, by rfl, ⟨_, by rfl⟩⟩
  intro field cond ctx a hsc
  unfold compileFieldCondition
  rw [if_pos hsc]
  unfold scalarCondition
  repeat' split
  all_goals simp [bumpOp, pushValue, pushValues]

theorem c9_scalar_equality_counts_one_witness :
    ((compileFieldCondition "x" (.vNum 1)
        { depth := 0, operatorCount := 0, values := [] } none).1).operatorCount =
      ({ depth := 0, operatorCount := 0, values := [] } : CompileContext).operatorCount + 1 :=
  c9_scalar_equality_counts_one.1 "x" (.vNum 1)
    { depth := 0, operatorCount := 0, values := [] } none rfl

/-- **C10** (implicit): the operand of `exists` is never type-checked — for an
arbitrary operand value the field compiles (no error) to `IS NOT NULL` when
the operand is truthy and `IS NULL` when it is falsy, as the concrete truthy
(`1`, `"yes"`) and falsy (`0`, `""`, `null`, `false`) instances illustrate. -/
theorem c10_exists_operand_truthiness :
    (∀ (v : JsVal) (ctx : CompileContext), ctx.operatorCount < MAX_OPERATORS →
      compileFieldCondition "f" (.vObj [("exists", v)]) ctx none =
        (bumpOp ctx,
         .ok (if truthy v then "(\"f\" IS NOT NULL)" else "(\"f\" IS NULL)"))) ∧
    compileFilter (.vObj [("f", .vObj [("exists", .vNum 1)])]) =
      .ok { text := "((\"f\" IS NOT NULL))", values := [] } ∧
    compileFilter (.vObj [("f", .vObj [("exists", .vStr "yes")])]) =
      .ok { text := "((\"f\" IS NOT NULL))", values := [] } ∧
    compileFilter (.vObj [("f", .vObj [("exists", .vNum 0)])]) =
      .ok { text := "((\"f\" IS NULL))", values := [] } ∧
    compileFilter (.vObj [("f", .vObj [("exists", .vStr "")])]) =
      .ok { text := "((\"f\" IS NULL))", values := [] } ∧
    compileFilter (.vObj [("f", .vObj [("exists", .vNull)])]) =
      .ok { text := "((\"f\" IS NULL))", values := [] } ∧
    compileFilter (.vObj [("f", .vObj [("exists", .vBool false)])]) =
      .ok { text := "((\"f\" IS NULL))", values := [] } := by
  refine ⟨?_, by rfl, by rfl, by rfl, by rfl, by rfl, by rfl⟩
  intro v ctx hlt
  have hg : ¬ (bumpOp ctx).operatorCount > MAX_OPERATORS := by
    simp only [bumpOp, gt_iff_lt, not_lt]
    omega
  rw [show compileFieldCondition "f" (.vObj [("exists", v)]) ctx none =
        operatorBody "\"f\"" [("exists", v)] ctx from rfl,
      operatorBody_exists_some (by rfl) hg]
  by_cases ht : truthy v
  · rw [if_pos ht, if_pos ht]
    rfl
  · rw [if_neg ht, if_neg ht]
    rfl

theorem c10_exists_operand_truthiness_witness :
    compileFieldCondition "f" (.vObj [("exists", .vDate "2024-01-01 00:00:00")])
        { depth := 0, operatorCount := 0, values := [] } none =
      (bumpOp { depth := 0, operatorCount := 0, values := [] },
       .ok (if truthy (.vDate "2024-01-01 00:00:00") then "(\"f\" IS NOT NULL)"
            else "(\"f\" IS NULL)")) :=
  c10_exists_operand_truthiness.1 (.vDate "2024-01-01 00:00:00")
    { depth := 0, operatorCount := 0, values := [] } (by decide)

theorem operatorCondition_exists_plain {field : String} {ops : List (String × JsVal)}
    {v : JsVal} {ctx : CompileContext} {a : Option String} {identText : String}
    (hfind : ops.find? (fun p => ¬ VALID_OPERATORS.contains p.1) = none)
    (hex : ops.lookup "exists" = some v)
    (hjson : isJsonPath field = false)
    (hident : sqlIdent field = .ok identText)
    (hg : ¬ (bumpOp ctx).operatorCount > MAX_OPERATORS) :
    operatorCondition field ops ctx a =
      (bumpOp ctx,
       .ok (if truthy v then "(" ++ qualify a identText ++ " IS NOT NULL)"
            else "(" ++ qualify a identText ++ " IS NULL)")) := by
  unfold operatorCondition
  simp only [hfind, hjson, Bool.false_eq_true, if_false, hident]
  exact operatorBody_exists_some hex hg

theorem operatorCondition_exists_json {field : String} {ops : List (String × JsVal)}
    {v : JsVal} {ctx : CompileContext} {a : Option String}
    {columnName jsonPath identText : String}
    (hfind : ops.find? (fun p => ¬ VALID_OPERATORS.contains p.1) = none)
    (hex : ops.lookup "exists" = some v)
    (hjson : isJsonPath field = true)
    (hpath : compileJsonPath field = .ok (columnName, jsonPath))
    (hident : sqlIdent columnName = .ok identText)
    (hg : ¬ (bumpOp (pushValue ctx (.vStr jsonPath))).operatorCount > MAX_OPERATORS) :
    operatorCondition field ops ctx a =
      (bumpOp (pushValue ctx (.vStr jsonPath)),
       .ok (if truthy v
            then "(" ++ ("json_extract(" ++ qualify a identText ++ ", ?)") ++ " IS NOT NULL)"
            else "(" ++ ("json_extract(" ++ qualify a identText ++ ", ?)") ++ " IS NULL)")) := by
  unfold operatorCondition
  simp only [hfind, hjson, if_true, hpath, hident]
  exact operatorBody_exists_some hex hg

/-- **C7**: whenever `exists` is present in an operator object whose keys are
all recognized, the field compiles to `IS NOT NULL` / `IS NULL` according to
the truthiness of the `exists` operand, every other co-present operator key
contributes no clause and no parameter (the context gains only the bumped
operator count, plus the JSON-path parameter for a dotted field), for any
context (hence at any nesting level) and any alias; the concrete nested
example shows `gt` and `like` next to `exists` producing no text and no
values. -/
theorem c7_exists_priority :
    (∀ (field : String) (ops : List (String × JsVal)) (v : JsVal)
       (ctx : CompileContext) (a : Option String) (identText : String),
      ops.lookup "exists" = some v →
      ops.find? (fun p => ¬ VALID_OPERATORS.contains p.1) = none →
      isJsonPath field = false →
      sqlIdent field = .ok identText →
      ctx.operatorCount < MAX_OPERATORS →
      compileFieldCondition field (.vObj ops) ctx a =
        (bumpOp ctx,
         .ok (if truthy v then "(" ++ qualify a identText ++ " IS NOT NULL)"
              else "(" ++ qualify a identText ++ " IS NULL)"))) ∧
    (∀ (field : String) (ops : List (String × JsVal)) (v : JsVal)
       (ctx : CompileContext) (a : Option String)
       (columnName jsonPath identText : String),
      ops.lookup "exists" = some v →
      ops.find? (fun p => ¬ VALID_OPERATORS.contains p.1) = none →
      isJsonPath field = true →
      compileJsonPath field = .ok (columnName, jsonPath) →
      sqlIdent columnName = .ok identText →
      ctx.operatorCount < MAX_OPERATORS →
      compileFieldCondition field (.vObj ops) ctx a =
        (bumpOp (pushValue ctx (.vStr jsonPath)),
         .ok (if truthy v
              then "(" ++ ("json_extract(" ++ qualify a identText ++ ", ?)") ++ " IS NOT NULL)"
              else "(" ++ ("json_extract(" ++ qualify a identText ++ ", ?)") ++ " IS NULL)"))) ∧
    compileFilter (.vObj [("and", .vArr [.vObj [("f",
        .vObj [("exists", .vBool true), ("gt", .vNum 3), ("like", .vStr "x")])]])]) =
      .ok { text := "(((\"f\" IS NOT NULL)))", values := [] } ∧
    compileFilter (.vObj [("p.q",
        .vObj [("exists", .vBool false), ("gte", .vNum 7)])]) =
      .ok { text := "((json_extract(\"p\", ?) IS NULL))", values := [.vStr "$.q"] } := by
  refine ⟨?_, ?_, by rfl, by rfl⟩
  · intro field ops v ctx a identText hex hfind hjson hident hlt
    have hg : ¬ (bumpOp ctx).operatorCount > MAX_OPERATORS := by
      simp only [bumpOp, gt_iff_lt, not_lt]
      omega
    unfold compileFieldCondition
    rw [if_neg (by simp [isScalar])]
    rw [show jsEntries (JsVal.vObj ops) = ops from rfl]
    exact operatorCondition_exists_plain hfind hex hjson hident hg
  · intro field ops v ctx a columnName jsonPath identText hex hfind hjson hpath hident hlt
    have hg : ¬ (bumpOp (pushValue ctx (.vStr jsonPath))).operatorCount > MAX_OPERATORS := by
      simp only [bumpOp, pushValue, gt_iff_lt, not_lt]
      omega
    unfold compileFieldCondition
    rw [if_neg (by simp [isScalar])]
    rw [show jsEntries (JsVal.vObj ops) = ops from rfl]
    exact operatorCondition_exists_json hfind hex hjson hpath hident hg

theorem c7_exists_priority_witness :
    compileFieldCondition "age" (.vObj [("exists", .vBool true), ("gt", .vNum 5)])
        { depth := 0, operatorCount := 0, values := [] } (some "t") =
      (bumpOp { depth := 0, operatorCount := 0, values := [] },
       .ok (if truthy (.vBool true) then "(" ++ qualify (some "t") "\"age\"" ++ " IS NOT NULL)"
            else "(" ++ qualify (some "t") "\"age\"" ++ " IS NULL)")) :=
  c7_exists_priority.1 "age" [("exists", .vBool true), ("gt", .vNum 5)] (.vBool true)
    { depth := 0, operatorCount := 0, values := [] } (some "t") "\"age\""
    (by rfl) (by rfl) (by rfl) (by rfl) (by decide)

/-- **C8**: a field name is treated as a JSON path exactly when it contains a
dot; the spec example `{"a.b.c": {gt: 1}}` compiles to
`((json_extract("a", ?) > ?))` with values `["$.b.c", 1]`; and whenever any
dot-separated segment (the column included) is empty, `compileJsonPath` fails
with the invalid-JSON-path error — concretely, `a..b`, `.a` and `a.` all make
whole-filter compilation fail with that error. -/
theorem c8_json_path_classification :
    (∀ field, isJsonPath field = strContainsChar field '.') ∧
    compileFilter (.vObj [("a.b.c", .vObj [("gt", .vNum 1)])]) =
      .ok { text := "((json_extract(\"a\", ?) > ?))",
            values := [.vStr "$.b.c", .vNum 1] } ∧
    (∀ field, (splitOnChar '.' field).any (fun p => p = "") = true →
      compileJsonPath field =
        .error (.syntaxError ("Invalid JSON path: " ++ field))) ∧
    compileFilter (.vObj [("a..b", .vNum 1)]) =
      .error (.syntaxError "Invalid JSON path: a..b") ∧
    compileFilter (.vObj [(".a", .vNum 1)]) =
      .error (.syntaxError "Invalid JSON path: .a") ∧
    compileFilter (.vObj [("a.", .vNum 1)]) =
      .error (.syntaxError "Invalid JSON path: a.") := by
  refine ⟨fun field => rfl, by rfl, ?_, by rfl, by rfl, by rfl⟩
  intro field h
  unfold compileJsonPath
  rw [if_pos]
  rcases hp : splitOnChar '.' field with _ | ⟨c, cs⟩
  · rw [hp] at h
    simp at h
  · rw [hp] at h
    simp only [List.any_cons, Bool.or_eq_true, decide_eq_true_eq] at h
    rcases h with h | h
    · left
      simpa using h
    · right
      right
      simpa using h

theorem c8_json_path_classification_witness :
    compileJsonPath "x..y" = .error (.syntaxError "Invalid JSON path: x..y") :=
  c8_json_path_classification.2.2.1 "x..y" (by rfl)

theorem logicalBranch_bad_shape
    (compileSub : JsVal → CompileContext → Option String → CompileContext × Except JsError String)
    {entries : List (String × JsVal)} {key joiner label : String}
    {ctx : CompileContext} {a : Option String} {v : JsVal}
    (hlk : entries.lookup key = some v) (ht : truthy v = true)
    (hbad : badCombinatorShape v = true) :
    ∃ c e, logicalBranch compileSub entries key joiner label ctx a = (c, .error e) := by
  unfold logicalBranch
  rw [hlk]
  simp only [ht, if_true]
  by_cases hg : (bumpOp ctx).operatorCount > MAX_OPERATORS
  · rw [if_pos hg]
    exact ⟨_, _, rfl⟩
  · rw [if_neg hg]
    cases v with
    | vArr subs =>
      have hemp : subs.isEmpty = true := hbad
      simp only [hemp, if_true]
      exact ⟨_, _, rfl⟩
    | vNull => exact ⟨_, _, rfl⟩
    | vUndefined => exact ⟨_, _, rfl⟩
    | vStr s => exact ⟨_, _, rfl⟩
    | vNum n => exact ⟨_, _, rfl⟩
    | vBool b => exact ⟨_, _, rfl⟩
    | vDate d => exact ⟨_, _, rfl⟩
    | vObj fields => exact ⟨_, _, rfl⟩

theorem logicalBranch_falsy
    (compileSub : JsVal → CompileContext → Option String → CompileContext × Except JsError String)
    {entries : List (String × JsVal)} {key joiner label : String}
    {ctx : CompileContext} {a : Option String} {v : JsVal}
    (hlk : entries.lookup key = some v) (ht : truthy v = false) :
    logicalBranch compileSub entries key joiner label ctx a = (ctx, .ok none) := by
  unfold logicalBranch
  rw [hlk]
  simp [ht]

/-- **C3** counterexample: the claim says a present `and` key always makes
compilation fail unless its value is a non-empty array, and is never silently
ignored.  But `{and: 0, x: 1}` — where `and` maps to the falsy non-array `0`
— compiles successfully to just the `x` clause: the guard
`'and' in filter && filter.and` skips falsy values, and the field pass
excludes the key `and` regardless of its value. -/
theorem c3_falsy_and_silently_ignored :
    compileFilter (.vObj [("and", .vNum 0), ("x", .vNum 1)]) =
      .ok { text := "((\"x\" = ?))", values := [.vNum 1] } := by
  rfl

/-- **C3** (amended): if `and` is present with a *truthy* value that is not a
non-empty array, compilation fails (likewise for `or`); a present `and`/`or`
key with a falsy value (`0`, `""`, `false`, `null`, `undefined`) contributes
no clause and raises no error. -/
theorem c3_truthy_combinator_must_be_nonempty_array :
    (∀ (entries : List (String × JsVal)) (v : JsVal) (fuel : Nat)
       (ctx : CompileContext) (a : Option String),
      entries.lookup "and" = some v → truthy v = true →
      badCombinatorShape v = true →
      ∃ c e, compileFilterRecursive (fuel + 1) (.vObj entries) ctx a =
        (c, .error e)) ∧
    (∀ (entries : List (String × JsVal)) (v : JsVal) (fuel : Nat)
       (ctx : CompileContext) (a : Option String),
      entries.lookup "or" = some v → truthy v = true →
      badCombinatorShape v = true →
      ∃ c e, compileFilterRecursive (fuel + 1) (.vObj entries) ctx a =
        (c, .error e)) ∧
    (∀ (compileSub : JsVal → CompileContext → Option String →
          CompileContext × Except JsError String)
       (entries : List (String × JsVal)) (key joiner label : String)
       (ctx : CompileContext) (a : Option String) (v : JsVal),
      entries.lookup key = some v → truthy v = false →
      logicalBranch compileSub entries key joiner label ctx a = (ctx, .ok none)) := by
  refine ⟨?_, ?_, fun cs entries key j l ctx a v hlk ht =>
    logicalBranch_falsy cs hlk ht⟩
  · intro entries v fuel ctx a hlk ht hbad
    unfold compileFilterRecursive
    by_cases hd : ctx.depth ≥ MAX_NESTING_DEPTH
    · rw [if_pos hd]
      exact ⟨_, _, rfl⟩
    · rw [if_neg hd]
      rw [if_neg (show ¬ ¬ jsIsObject (JsVal.vObj entries) = true by simp [jsIsObject])]
      obtain ⟨c1, e1, hbr⟩ :=
        @logicalBranch_bad_shape (compileFilterRecursive fuel) entries "and"
          " AND " "AND" { ctx with depth := ctx.depth + 1 } a v hlk ht hbad
      have hlv : filterLevel (compileFilterRecursive fuel)
          (jsEntries (JsVal.vObj entries)) { ctx with depth := ctx.depth + 1 } a =
          (c1, .error e1) := by
        unfold filterLevel
        rw [show jsEntries (JsVal.vObj entries) = entries from rfl, hbr]
      rw [hlv]
      exact ⟨_, _, rfl⟩
  · intro entries v fuel ctx a hlk ht hbad
    unfold compileFilterRecursive
    by_cases hd : ctx.depth ≥ MAX_NESTING_DEPTH
    · rw [if_pos hd]
      exact ⟨_, _, rfl⟩
    · rw [if_neg hd]
      rw [if_neg (show ¬ ¬ jsIsObject (JsVal.vObj entries) = true by simp [jsIsObject])]
      rcases hand : logicalBranch (compileFilterRecursive fuel) entries "and"
          " AND " "AND" { ctx with depth := ctx.depth + 1 } a with ⟨c1, r1⟩
      cases r1 with
      | error e1 =>
        have hlv : filterLevel (compileFilterRecursive fuel)
            (jsEntries (JsVal.vObj entries)) { ctx with depth := ctx.depth + 1 } a =
            (c1, .error e1) := by
          unfold filterLevel
          rw [show jsEntries (JsVal.vObj entries) = entries from rfl, hand]
        rw [hlv]
        exact ⟨_, _, rfl⟩
      | ok andCl =>
        obtain ⟨c2, e2, hbr⟩ :=
          @logicalBranch_bad_shape (compileFilterRecursive fuel) entries "or"
            " OR " "OR" c1 a v hlk ht hbad
        have hlv : filterLevel (compileFilterRecursive fuel)
            (jsEntries (JsVal.vObj entries)) { ctx with depth := ctx.depth + 1 } a =
            (c2, .error e2) := by
          unfold filterLevel
          rw [show jsEntries (JsVal.vObj entries) = entries from rfl, hand]
          simp only []
          rw [hbr]
        rw [hlv]
        exact ⟨_, _, rfl⟩

theorem c3_truthy_combinator_must_be_nonempty_array_witness :
    ∃ c e, compileFilterRecursive 12 (.vObj [("and", .vStr "x")])
        { depth := 0, operatorCount := 0, values := [] } none = (c, .error e) :=
  c3_truthy_combinator_must_be_nonempty_array.1 [("and", .vStr "x")] (.vStr "x")
    11 { depth := 0, operatorCount := 0, values := [] } none
    (by rfl) (by rfl) (by rfl)

/-- **C4**: each compiled filter level builds its clause list in the fixed
order — the `and` clause (if any), the `or` clause (if any), plain field
clauses in the object's own filtered key order (`fieldEntries` drops `and`,
`or`, `$`-keys and `undefined` values), alias-block clauses last — and the
level result is the sole clause as-is when there is exactly one, otherwise
the `" AND "` join wrapped in parentheses.  The scrambled concrete example
(keys in order `b`, `$t`, `or`, `and`) compiles with the `and` clause first,
then `or`, then `b`, then the alias block, with values reordered to
`[4, 3, 1, 2]`; the second example is the spec's alias-qualification
example. -/
theorem c4_clause_order :
    (∀ (cs : JsVal → CompileContext → Option String →
          CompileContext × Except JsError String)
       (entries : List (String × JsVal)) (ctx : CompileContext)
       (a : Option String) (c : CompileContext) (r : List String),
      filterLevel cs entries ctx a = (c, .ok r) →
      ∃ c1 c2 c3 andCl orCl fieldCls aliasCls,
        logicalBranch cs entries "and" " AND " "AND" ctx a = (c1, .ok andCl) ∧
        logicalBranch cs entries "or" " OR " "OR" c1 a = (c2, .ok orCl) ∧
        threadList (fieldStep a) (fieldEntries entries) c2 = (c3, .ok fieldCls) ∧
        threadList (aliasStep cs) (aliasEntries entries) c3 = (c, .ok aliasCls) ∧
        r = andCl.toList ++ orCl.toList ++ fieldCls ++ aliasCls) ∧
    (∀ (fuel : Nat) (f : JsVal) (ctx : CompileContext) (a : Option String)
       (c : CompileContext) (clauses : List String),
      ctx.depth < MAX_NESTING_DEPTH →
      jsIsObject f = true →
      filterLevel (compileFilterRecursive fuel) (jsEntries f)
        { ctx with depth := ctx.depth + 1 } a = (c, .ok clauses) →
      clauses ≠ [] →
      compileFilterRecursive (fuel + 1) f ctx a =
        ({ c with depth := c.depth - 1 },
         .ok (if clauses.length = 1 then clauses.headD ""
              else "(" ++ String.intercalate " AND " clauses ++ ")"))) ∧
    compileFilter (.vObj [("b", .vNum 1), ("$t", .vObj [("c", .vNum 2)]),
        ("or", .vArr [.vObj [("d", .vNum 3)]]),
        ("and", .vArr [.vObj [("e", .vNum 4)]])]) =
      .ok { text := "((((\"e\" = ?)) AND ((\"d\" = ?)) AND (\"b\" = ?) AND (t.\"c\" = ?)))",
            values := [.vNum 4, .vNum 3, .vNum 1, .vNum 2] } ∧
    compileFilter (.vObj [("status", .vStr "ACTIVE"),
        ("$t2", .vObj [("n", .vObj [("gte", .vNum 100)])])]) =
      .ok { text := "(((\"status\" = ?) AND (t2.\"n\" >= ?)))",
            values := [.vStr "ACTIVE", .vNum 100] } := by
  refine ⟨?_, ?_, by rfl, by rfl⟩
  · intro cs entries ctx a c r h
    unfold filterLevel at h
    repeat' split at h
    all_goals try simp only [Prod.mk.injEq] at h
    all_goals obtain ⟨h1, h2⟩ := h
    all_goals cases h2
    all_goals subst h1
    exact ⟨_, _, _, _, _, _, _, by assumption, by assumption, by assumption,
      by assumption, rfl⟩
  · intro fuel f ctx a c clauses hd hobj hlvl hne
    have hni : clauses.isEmpty = false := by
      cases clauses with
      | nil => simp at hne
      | cons x xs => rfl
    unfold compileFilterRecursive
    rw [if_neg (by omega)]
    rw [if_neg (by simp [hobj])]
    rw [hlvl]
    simp only []
    rw [if_neg (by simp [hni])]
    by_cases hl : clauses.length = 1
    · rw [if_pos hl, if_pos hl]
    · rw [if_neg hl, if_neg hl]

theorem c4_clause_order_witness :
    (∃ c1 c2 c3 andCl orCl fieldCls aliasCls,
      logicalBranch (compileFilterRecursive 11) [(("x" : String), JsVal.vNum 1)]
          "and" " AND " "AND" { depth := 1, operatorCount := 0, values := [] } none =
        (c1, .ok andCl) ∧
      logicalBranch (compileFilterRecursive 11) [(("x" : String), JsVal.vNum 1)]
          "or" " OR " "OR" c1 none = (c2, .ok orCl) ∧
      threadList (fieldStep none) (fieldEntries [(("x" : String), JsVal.vNum 1)]) c2 =
        (c3, .ok fieldCls) ∧
      threadList (aliasStep (compileFilterRecursive 11))
          (aliasEntries [(("x" : String), JsVal.vNum 1)]) c3 =
        ({ depth := 1, operatorCount := 1, values := [JsVal.vNum 1] }, .ok aliasCls) ∧
      ["(\"x\" = ?)"] = andCl.toList ++ orCl.toList ++ fieldCls ++ aliasCls) ∧
    compileFilterRecursive 12 (.vObj [("x", .vNum 1)])
        { depth := 0, operatorCount := 0, values := [] } none =
      ({ depth := 0, operatorCount := 1, values := [.vNum 1] }, .ok "(\"x\" = ?)") := by
  constructor
  · exact c4_clause_order.1 (compileFilterRecursive 11) [("x", JsVal.vNum 1)]
      { depth := 1, operatorCount := 0, values := [] } none
      { depth := 1, operatorCount := 1, values := [JsVal.vNum 1] } ["(\"x\" = ?)"]
      (by rfl)
  · have h := c4_clause_order.2.1 11 (.vObj [("x", .vNum 1)])
      { depth := 0, operatorCount := 0, values := [] } none
      { depth := 1, operatorCount := 1, values := [.vNum 1] } ["(\"x\" = ?)"]
      (by decide) (by rfl) (by rfl) (by simp)
    simpa using h

/-! ## Adequacy of the fuel embedding: `.fuelExhausted` never escapes -/

theorem sqlValue_not_fuel {v : JsVal} {e : JsError}
    (h : sqlValue v = .error e) : e ≠ .fuelExhausted := by
  cases v <;> simp [sqlValue] at h <;> simp [← h]

theorem mapSqlValue_not_fuel :
    ∀ {xs : List JsVal} {e : JsError},
      mapSqlValue xs = .error e → e ≠ .fuelExhausted := by
  intro xs
  induction xs with
  | nil => intro e h; simp [mapSqlValue] at h
  | cons x rest ih =>
    intro e h
    unfold mapSqlValue at h
    rcases hx : sqlValue x with e1 | v1
    · rw [hx] at h
      cases h
      exact sqlValue_not_fuel hx
    · rw [hx] at h
      simp only [] at h
      rcases hr : mapSqlValue rest with e2 | vs
      · rw [hr] at h
        cases h
        exact ih hr
      · rw [hr] at h
        simp at h

theorem sqlIn_not_fuel {xs : List JsVal} {e : JsError}
    (h : sqlIn xs = .error e) : e ≠ .fuelExhausted := by
  unfold sqlIn at h
  split at h
  · cases h
    simp
  · split at h
    · rename_i e1 heq
      cases h
      exact mapSqlValue_not_fuel heq
    · simp at h

theorem sqlIdent_not_fuel {s : String} {e : JsError}
    (h : sqlIdent s = .error e) : e ≠ .fuelExhausted := by
  unfold sqlIdent at h
  split at h
  · cases h; simp
  · split at h
    · cases h; simp
    · simp at h

theorem compileJsonPath_not_fuel {s : String} {e : JsError}
    (h : compileJsonPath s = .error e) : e ≠ .fuelExhausted := by
  unfold compileJsonPath at h
  split at h
  · cases h; simp
  · simp at h

theorem opSwitch_not_fuel {fe op : String} {value : JsVal}
    {ctx c' : CompileContext} {e : JsError}
    (h : opSwitch fe op value ctx = (c', .error e)) : e ≠ .fuelExhausted := by
  unfold opSwitch at h
  repeat' split at h
  all_goals simp only [Prod.mk.injEq] at h
  all_goals obtain ⟨h1, h2⟩ := h
  all_goals first
    | (cases h2; exact sqlValue_not_fuel (by assumption))
    | (cases h2; exact sqlIn_not_fuel (by assumption))
    | (cases h2; simp)
    | cases h2

theorem threadList_err_not_fuel {α β : Type}
    (f : α → CompileContext → CompileContext × Except JsError β)
    (Q : CompileContext → Prop)
    (hok : ∀ x c c' y, f x c = (c', .ok y) → Q c → Q c')
    (herr : ∀ x c c' e, f x c = (c', .error e) → Q c → e ≠ .fuelExhausted) :
    ∀ (xs : List α) (c c' : CompileContext) (e : JsError),
      threadList f xs c = (c', .error e) → Q c → e ≠ .fuelExhausted := by
  intro xs
  induction xs with
  | nil =>
    intro c c' e h hq
    simp [threadList] at h
  | cons x rest ih =>
    intro c c' e h hq
    simp only [threadList] at h
    rcases hfx : f x c with ⟨c1, r1⟩
    rw [hfx] at h
    cases r1 with
    | error e1 =>
      simp only [Prod.mk.injEq] at h
      obtain ⟨h1, h2⟩ := h
      cases h2
      exact herr x c c1 e hfx hq
    | ok y =>
      simp only [] at h
      rcases hrest : threadList f rest c1 with ⟨c2, r2⟩
      rw [hrest] at h
      cases r2 with
      | error e2 =>
        simp only [Prod.mk.injEq] at h
        obtain ⟨h1, h2⟩ := h
        cases h2
        exact ih c1 c2 e hrest (hok x c c1 y hfx hq)
      | ok ys => simp at h

theorem operatorStep_not_fuel {fe : String} {x : String × JsVal}
    {c c' : CompileContext} {e : JsError}
    (h : operatorStep fe x c = (c', .error e)) : e ≠ .fuelExhausted := by
  unfold operatorStep at h
  split at h
  · simp only [Prod.mk.injEq] at h
    obtain ⟨h1, h2⟩ := h
    cases h2
    simp
  · exact opSwitch_not_fuel h

theorem compileOperatorEntries_not_fuel {fe : String} {ops : List (String × JsVal)}
    {ctx c' : CompileContext} {e : JsError}
    (h : compileOperatorEntries fe ops ctx = (c', .error e)) : e ≠ .fuelExhausted := by
  unfold compileOperatorEntries at h
  split at h
  · rename_i c1 e1 heq
    simp only [Prod.mk.injEq] at h
    obtain ⟨h1, h2⟩ := h
    cases h2
    exact threadList_err_not_fuel (operatorStep fe) (fun _ => True)
      (fun _ _ _ _ _ _ => trivial) (fun x c c2 e2 hx _ => operatorStep_not_fuel hx)
      ops ctx c1 e heq trivial
  · simp at h

theorem scalarCondition_not_fuel {field : String} {cond : JsVal}
    {ctx c' : CompileContext} {a : Option String} {e : JsError}
    (h : scalarCondition field cond ctx a = (c', .error e)) : e ≠ .fuelExhausted := by
  unfold scalarCondition at h
  repeat' split at h
  all_goals simp only [Prod.mk.injEq] at h
  all_goals obtain ⟨h1, h2⟩ := h
  all_goals first
    | (cases h2; exact compileJsonPath_not_fuel (by assumption))
    | (cases h2; exact sqlIdent_not_fuel (by assumption))
    | (cases h2; exact sqlValue_not_fuel (by assumption))
    | (cases h2; simp)
    | cases h2

theorem operatorBody_not_fuel {fe : String} {ops : List (String × JsVal)}
    {ctx c' : CompileContext} {e : JsError}
    (h : operatorBody fe ops ctx = (c', .error e)) : e ≠ .fuelExhausted := by
  unfold operatorBody at h
  repeat' split at h
  all_goals simp only [Prod.mk.injEq] at h
  all_goals obtain ⟨h1, h2⟩ := h
  all_goals first
    | (cases h2; exact compileOperatorEntries_not_fuel (by assumption))
    | (cases h2; simp)
    | cases h2

theorem operatorCondition_not_fuel {field : String} {ops : List (String × JsVal)}
    {ctx c' : CompileContext} {a : Option String} {e : JsError}
    (h : operatorCondition field ops ctx a = (c', .error e)) : e ≠ .fuelExhausted := by
  unfold operatorCondition at h
  repeat' split at h
  all_goals first
    | exact operatorBody_not_fuel h
    | (simp only [Prod.mk.injEq] at h
       obtain ⟨h1, h2⟩ := h
       first
         | (cases h2; exact compileJsonPath_not_fuel (by assumption))
         | (cases h2; exact sqlIdent_not_fuel (by assumption))
         | (cases h2; simp))

theorem compileFieldCondition_not_fuel {field : String} {cond : JsVal}
    {ctx c' : CompileContext} {a : Option String} {e : JsError}
    (h : compileFieldCondition field cond ctx a = (c', .error e)) : e ≠ .fuelExhausted := by
  unfold compileFieldCondition at h
  split at h
  · exact scalarCondition_not_fuel h
  · exact operatorCondition_not_fuel h

theorem fieldStep_not_fuel {a : Option String} {x : String × JsVal}
    {ctx c' : CompileContext} {e : JsError}
    (h : fieldStep a x ctx = (c', .error e)) : e ≠ .fuelExhausted := by
  unfold fieldStep at h
  split at h
  · simp only [Prod.mk.injEq] at h
    obtain ⟨h1, h2⟩ := h
    cases h2
    simp
  · exact compileFieldCondition_not_fuel h

theorem logicalBranch_not_fuel
    (compileSub : JsVal → CompileContext → Option String → CompileContext × Except JsError String)
    (Q : CompileContext → Prop)
    (hQd : ∀ c c' : CompileContext, c'.depth = c.depth → Q c → Q c')
    (hsubok : ∀ f c a c' s, compileSub f c a = (c', .ok s) → ctxInvariant c c')
    (hsuberr : ∀ f c a c' e, compileSub f c a = (c', .error e) → Q c → e ≠ .fuelExhausted)
    {entries : List (String × JsVal)} {key joiner label : String}
    {ctx c' : CompileContext} {a : Option String} {e : JsError}
    (h : logicalBranch compileSub entries key joiner label ctx a = (c', .error e))
    (hq : Q ctx) : e ≠ .fuelExhausted := by
  unfold logicalBranch at h
  repeat' split at h
  all_goals simp only [Prod.mk.injEq] at h
  all_goals obtain ⟨h1, h2⟩ := h
  all_goals first
    | (cases h2
       exact threadList_err_not_fuel _ Q
         (fun x c c2 y hx hqc => hQd c c2 (hsubok x c a c2 y hx).1 hqc)
         (fun x c c2 e2 hx hqc => hsuberr x c a c2 e2 hx hqc)
         _ _ _ _ (by assumption) (hQd ctx (bumpOp ctx) rfl hq))
    | (cases h2; simp)
    | cases h2

theorem filterLevel_not_fuel
    (compileSub : JsVal → CompileContext → Option String → CompileContext × Except JsError String)
    (Q : CompileContext → Prop)
    (hQd : ∀ c c' : CompileContext, c'.depth = c.depth → Q c → Q c')
    (hsubok : ∀ f c a c' s, compileSub f c a = (c', .ok s) → ctxInvariant c c')
    (hsuberr : ∀ f c a c' e, compileSub f c a = (c', .error e) → Q c → e ≠ .fuelExhausted)
    {entries : List (String × JsVal)} {ctx c' : CompileContext}
    {a : Option String} {e : JsError}
    (h : filterLevel compileSub entries ctx a = (c', .error e))
    (hq : Q ctx) : e ≠ .fuelExhausted := by
  unfold filterLevel at h
  rcases hand : logicalBranch compileSub entries "and" " AND " "AND" ctx a with ⟨cA, rA⟩
  rw [hand] at h
  cases rA with
  | error eA =>
    simp only [Prod.mk.injEq] at h
    obtain ⟨h1, h2⟩ := h
    cases h2
    exact logicalBranch_not_fuel compileSub Q hQd hsubok hsuberr hand hq
  | ok andCl =>
    simp only [] at h
    have hqA : Q cA := hQd _ _ (logicalBranch_ok_inv compileSub hsubok hand).1 hq
    rcases hor : logicalBranch compileSub entries "or" " OR " "OR" cA a with ⟨cB, rB⟩
    rw [hor] at h
    cases rB with
    | error eB =>
      simp only [Prod.mk.injEq] at h
      obtain ⟨h1, h2⟩ := h
      cases h2
      exact logicalBranch_not_fuel compileSub Q hQd hsubok hsuberr hor hqA
    | ok orCl =>
      simp only [] at h
      have hqB : Q cB := hQd _ _ (logicalBranch_ok_inv compileSub hsubok hor).1 hqA
      rcases hfl : threadList (fieldStep a) (fieldEntries entries) cB with ⟨cC, rC⟩
      rw [hfl] at h
      cases rC with
      | error eC =>
        simp only [Prod.mk.injEq] at h
        obtain ⟨h1, h2⟩ := h
        cases h2
        exact threadList_err_not_fuel _ Q
          (fun x c c2 y hx hqc => hQd c c2 (fieldStep_ok_inv hx).1 hqc)
          (fun x c c2 e2 hx _ => fieldStep_not_fuel hx)
          _ _ _ _ hfl hqB
      | ok fcl =>
        simp only [] at h
        have hqC : Q cC := hQd _ _
          (threadList_ok_inv _ (fun x c1 c2 y hx => fieldStep_ok_inv hx) _ _ _ _ hfl).1 hqB
        rcases hal : threadList (aliasStep compileSub) (aliasEntries entries) cC with ⟨cD, rD⟩
        rw [hal] at h
        cases rD with
        | error eD =>
          simp only [Prod.mk.injEq] at h
          obtain ⟨h1, h2⟩ := h
          cases h2
          refine threadList_err_not_fuel _ Q
            (fun x c c2 y hx hqc => hQd c c2 (aliasStep_ok_inv compileSub hsubok hx).1 hqc)
            (fun x c c2 e2 hx hqc => ?_) _ _ _ _ hal hqC
          unfold aliasStep at hx
          split at hx
          · simp only [Prod.mk.injEq] at hx
            obtain ⟨hx1, hx2⟩ := hx
            cases hx2
            simp
          · exact hsuberr _ _ _ _ _ hx hqc
        | ok acl => simp at h

theorem compileFilterRecursive_not_fuel :
    ∀ (fuel : Nat) (f : JsVal) (ctx : CompileContext) (a : Option String)
      (c' : CompileContext) (e : JsError),
      compileFilterRecursive fuel f ctx a = (c', .error e) →
      ctx.depth ≤ MAX_NESTING_DEPTH →
      MAX_NESTING_DEPTH < ctx.depth + fuel →
      e ≠ .fuelExhausted := by
  intro fuel
  induction fuel with
  | zero =>
    intro f ctx a c' e h hd hfuel
    omega
  | succ n ih =>
    intro f ctx a c' e h hd hfuel
    unfold compileFilterRecursive at h
    split at h
    · simp only [Prod.mk.injEq] at h
      obtain ⟨h1, h2⟩ := h
      cases h2
      simp
    · rename_i hdep
      split at h
      · simp only [Prod.mk.injEq] at h
        obtain ⟨h1, h2⟩ := h
        cases h2
        simp
      · rcases hlvl : filterLevel (compileFilterRecursive n) (jsEntries f)
            { ctx with depth := ctx.depth + 1 } a with ⟨c1, r1⟩
        rw [hlvl] at h
        cases r1 with
        | error e1 =>
          simp only [Prod.mk.injEq] at h
          obtain ⟨h1, h2⟩ := h
          cases h2
          refine filterLevel_not_fuel (compileFilterRecursive n)
            (fun c => c.depth ≤ MAX_NESTING_DEPTH ∧ MAX_NESTING_DEPTH < c.depth + n)
            (fun c c2 hdd hqc => by omega)
            (fun g c a1 c2 s hx => compileFilterRecursive_ok_inv n g c a1 c2 s hx)
            (fun g c a1 c2 e2 hx hqc => ih g c a1 c2 e2 hx hqc.1 hqc.2)
            hlvl ⟨?_, ?_⟩
          · show ctx.depth + 1 ≤ MAX_NESTING_DEPTH
            omega
          · show MAX_NESTING_DEPTH < ctx.depth + 1 + n
            omega
        | ok clauses =>
          simp only [] at h
          split at h
          · simp only [Prod.mk.injEq] at h
            obtain ⟨h1, h2⟩ := h
            cases h2
            simp
          · split at h
            all_goals simp at h

/-- The fuel supplied by `compileFilter` suffices: no error it reports is the
out-of-fuel artifact of the embedding — the depth guard of the source always
fires before the fuel runs out. -/
theorem fuel_adequate {f : JsVal} {e : JsError}
    (h : compileFilter f = .error e) : e ≠ .fuelExhausted := by
  unfold compileFilter at h
  simp only [] at h
  rcases hrec : compileFilterRecursive COMPILE_FUEL f
      { depth := 0, operatorCount := 0, values := [] } none with ⟨c1, r1⟩
  rw [hrec] at h
  cases r1 with
  | error e1 =>
    simp only [] at h
    cases h
    exact compileFilterRecursive_not_fuel COMPILE_FUEL f
      { depth := 0, operatorCount := 0, values := [] } none c1 e hrec
      (by decide) (by decide)
  | ok s => simp at h
